import Mathlib

/-!
Verification of the instrument-repl core of tsp-toolkit-kic-cli.

This file shallowly embeds the response tokenizer (instrument.rs), the
read-state machine (state_machine.rs / the node-capture variant adopted by
the spec), the action-derivation and dispatch helpers of repl.rs, and the
node-configuration persistence logic, and proves or refutes the frozen
claims about them.

Conventions:
* Rust byte slices and Vec of u8 become List Nat (each element < 256 in
  practice, though nothing below needs that bound).
* Rust String payloads travel as their UTF-8 bytes (List Nat); the
  from_utf8_lossy conversion only matters where whitespace trimming or
  sentinel matching is performed, and is modelled there at byte level via
  the UTF-8 encodings of the White_Space characters, which agrees with the
  char-level view on every byte sequence (invalid sequences map to
  U+FFFD, which is not whitespace, and each White_Space character has a
  unique encoding).
* Fallible Rust functions returning Result become Except.
-/

/-- Frame vocabulary emitted by the instrument, from instrument.rs
(enum ParsedResponse).  Data and TspError payloads are kept as raw bytes. -/
inductive ParsedResponse where
  | Prompt
  | PromptWithError
  | TspErrorStart
  | TspError (e : List Nat)
  | TspErrorEnd
  | Data (d : List Nat)
  | ProgressIndicator
  | NodeStart
  | NodeEnd
deriving DecidableEq

/-- Read-state alphabet of the node-capture state machine.  The enum under
src (state_machine.rs) is the older binary-data variant; repl.rs
pattern-matches the node-capture states below, so this is the variant the
crate actually uses and the one the specification adopts. -/
inductive ReadState where
  | Init
  | TextDataReadStart
  | TextDataReadContinue
  | DataReadEnd
  | DataReadEndPendingError
  | ErrorReadStart
  | ErrorReadContinue
  | ErrorReadEnd
  | FileLoading
  | NodeDataReadStart
  | NodeDataReadContinue
  | NodeDataReadEnd
deriving DecidableEq

namespace Repl

/-- Side-effect intents derived from state transitions, from repl.rs
(enum Action). -/
inductive Action where
  | Prompt
  | GetError
  | PrintText
  | PrintError
  | GetNodeDetails
  | None
deriving DecidableEq

end Repl

/-- The variants of error.rs's InstrumentReplError that the code modelled in
this file can construct.  The deserialization variant records the offending
record bytes in place of the serde_json error value. -/
inductive InstrumentReplError where
  | ioError (msg : String)
  | stateMachineTransitionError (state : ReadState) (input : ParsedResponse)
  | other (msg : String)
  | deserializationError (record : List Nat)
deriving DecidableEq

deriving instance DecidableEq for Except

/- Sentinel byte strings, from ParsedResponse::find_next / parse_next. -/

/-- Bytes of the sentinel TSP greater-than prompt. -/
def promptBytes : List Nat := [84, 83, 80, 62]

/-- Bytes of the sentinel TSP question-mark prompt. -/
def promptErrBytes : List Nat := [84, 83, 80, 63]

/-- Bytes of the sentinel that opens an error dump. -/
def ermStartBytes : List Nat := [69, 82, 77, 62, 83, 84, 65, 82, 84]

/-- Bytes of the sentinel that closes an error dump. -/
def ermDoneBytes : List Nat := [69, 82, 77, 62, 68, 79, 78, 69]

/-- Bytes of the sentinel that opens one error record. -/
def ermBytes : List Nat := [69, 82, 77, 62]

/-- Bytes of the progress-indicator sentinel (four greater-than signs). -/
def progressBytes : List Nat := [62, 62, 62, 62]

/-- Bytes of the sentinel that opens a node payload. -/
def nodeStartBytes : List Nat := [78, 79, 68, 69, 62, 83, 84, 65, 82, 84]

/-- Bytes of the sentinel that closes a node payload. -/
def nodeEndBytes : List Nat := [78, 79, 68, 69, 62, 69, 78, 68]

/-- The needle list searched by ParsedResponse::find_next, in source order. -/
def findNeedles : List (List Nat) :=
  [promptBytes, promptErrBytes, ermStartBytes, ermDoneBytes, ermBytes,
   progressBytes, nodeStartBytes, nodeEndBytes]

/-- Position of the first window of input equal to needle, mirroring
input.windows(needle.len()).position(pred) for a non-empty needle. -/
def fwAux (needle : List Nat) : List Nat → Option Nat
  | [] => none
  | b :: rest =>
    if needle.isPrefixOf (b :: rest) then some 0
    else (fwAux needle rest).map (· + 1)

/-- find_first_of from instrument.rs: the lowest first-occurrence position of
any needle, or none when no needle occurs. -/
def find_first_of (input : List Nat) (search : List (List Nat)) : Option Nat :=
  let lowest := search.foldl
    (fun low i =>
      match fwAux i input with
      | none => low
      | some t => min t low)
    input.length
  if lowest < input.length then some lowest else none

/-- ParsedResponse::find_next from instrument.rs. -/
def find_next (input : List Nat) : Option Nat :=
  find_first_of input findNeedles

/-- UTF-8 encodings of every char with the Unicode White_Space property:
exactly the characters stripped by Rust's str::trim_start / trim. -/
def wsSeqs : List (List Nat) :=
  [[9], [10], [11], [12], [13], [32],
   [194, 133], [194, 160],
   [225, 154, 128],
   [226, 128, 128], [226, 128, 129], [226, 128, 130], [226, 128, 131],
   [226, 128, 132], [226, 128, 133], [226, 128, 134], [226, 128, 135],
   [226, 128, 136], [226, 128, 137], [226, 128, 138],
   [226, 128, 168], [226, 128, 169], [226, 128, 175],
   [226, 129, 159],
   [227, 128, 128]]

/-- First whitespace encoding found as a prefix of the byte stream. -/
def firstWs (l : List Nat) : Option (List Nat) :=
  wsSeqs.find? (fun s => s.isPrefixOf l)

/-- Fueled worker for trimStartUtf8; each step strips one whitespace
character (at least one byte), so fuel equal to the length is exact. -/
def trimStartUtf8Aux : Nat → List Nat → List Nat
  | 0, l => l
  | n + 1, l =>
    match firstWs l with
    | none => l
    | some s => trimStartUtf8Aux n (l.drop s.length)

/-- Byte-level model of str::trim_start applied to the UTF-8-lossy view of
a byte buffer. -/
def trimStartUtf8 (l : List Nat) : List Nat :=
  trimStartUtf8Aux l.length l

/-- Fueled worker for trimEndUtf8. -/
def trimEndUtf8Aux : Nat → List Nat → List Nat
  | 0, l => l
  | n + 1, l =>
    match wsSeqs.find? (fun s => s.isSuffixOf l) with
    | none => l
    | some s => trimEndUtf8Aux n (l.take (l.length - s.length))

/-- Byte-level model of trimming trailing whitespace from the lossy view. -/
def trimEndUtf8 (l : List Nat) : List Nat :=
  trimEndUtf8Aux l.length l

/-- Byte-level model of str::trim (both ends). -/
def trimUtf8 (l : List Nat) : List Nat :=
  trimEndUtf8 (trimStartUtf8 l)

/-- u8::is_ascii_whitespace, used by trim_ascii_start in the tokenizer's
iterator step.  Note vertical tab (11) is not ASCII whitespace. -/
def isAsciiWsByte (b : Nat) : Bool :=
  b == 32 || b == 9 || b == 10 || b == 12 || b == 13

/-- Byte slice trim_ascii_start. -/
def trimAsciiStart (l : List Nat) : List Nat :=
  l.dropWhile isAsciiWsByte

/-- ParsedResponse::parse_next from instrument.rs, translated branch by
branch.  The sentinel checks run on the whitespace-trimmed lossy view s,
while every slice is taken from the untrimmed input, exactly as in the
source (the if-length guards around each slice are kept verbatim). -/
def parse_next (input : List Nat) : Option (ParsedResponse × List Nat) :=
  if input.isEmpty || input.head? == some 0 then none
  else
    let s := trimStartUtf8 input
    if nodeStartBytes.isPrefixOf s then
      some (.NodeStart, if 10 < input.length then input.drop 10 else [])
    else if nodeEndBytes.isPrefixOf s then
      some (.NodeEnd, if 8 < input.length then input.drop 8 else [])
    else if promptBytes.isPrefixOf s then
      some (.Prompt, if 4 < input.length then input.drop 4 else [])
    else if promptErrBytes.isPrefixOf s then
      some (.PromptWithError, if 4 < input.length then input.drop 4 else [])
    else if ermStartBytes.isPrefixOf s then
      some (.TspErrorStart, if 9 < input.length then input.drop 9 else [])
    else if ermDoneBytes.isPrefixOf s then
      some (.TspErrorEnd, if 8 < input.length then input.drop 8 else [])
    else if ermBytes.isPrefixOf s then
      let vr : List Nat × List Nat :=
        if 4 < input.length then
          match find_next (input.drop 4) with
          | none => (input.drop 4, [])
          | some nt => ((input.drop 4).take nt, (input.drop 4).drop nt)
        else ([], [])
      some (.TspError (trimUtf8 vr.1), vr.2)
    else if progressBytes.isPrefixOf s then
      some (.ProgressIndicator, if 4 < input.length then input.drop 4 else [])
    else
      match find_next input with
      | none => some (.Data input, [])
      | some nt => some (.Data (input.take nt), input.drop nt)

/-- Fueled worker for tokenize.  The ResponseParser iterator trims the
remainder with trim_ascii_start after each frame; every successful
parse_next call strictly shortens the buffer (parse_next_shrink below), so
fuel equal to the buffer length reproduces the iterator exactly. -/
def tokenizeAux : Nat → List Nat → List ParsedResponse
  | 0, _ => []
  | fuel + 1, input =>
    match parse_next input with
    | none => []
    | some (f, r) => f :: tokenizeAux fuel (trimAsciiStart r)

/-- The full frame sequence produced by ResponseParser over a buffer. -/
def tokenize (input : List Nat) : List ParsedResponse :=
  tokenizeAux input.length input

/-- Modelled from the spec: ReadState::next_state of the node-capture
state-machine variant.  The crate's repl.rs drives a ReadState carrying the
node-capture states, but the state_machine.rs present under src is the
older binary-data variant (it matches a BinaryData frame that the
tokenizer's ParsedResponse no longer has and lacks the node states), so
the node-capture next_state source is missing; this definition transcribes
the spec's transition table in section 4.2 row by row.  On the nine shared
states and seven shared inputs it coincides with the state_machine.rs
under src.  Undefined pairs fall to the final catch-all, which returns the
transition error carrying the state and the input, as in the source. -/
def ReadState.next_state (state : ReadState) (input : ParsedResponse) :
    Except InstrumentReplError ReadState :=
  match state, input with
  -- Transitions from Init
  | .Init, .Prompt => .ok .DataReadEnd
  | .Init, .PromptWithError => .ok .DataReadEndPendingError
  | .Init, .TspErrorStart => .ok .ErrorReadStart
  | .Init, .Data _ => .ok .TextDataReadStart
  | .Init, .ProgressIndicator => .ok .FileLoading
  | .Init, .NodeStart => .ok .NodeDataReadStart
  -- Transitions from TextDataReadStart
  | .TextDataReadStart, .Prompt => .ok .DataReadEnd
  | .TextDataReadStart, .PromptWithError => .ok .DataReadEndPendingError
  | .TextDataReadStart, .TspErrorStart => .ok .ErrorReadStart
  | .TextDataReadStart, .Data _ => .ok .TextDataReadContinue
  | .TextDataReadStart, .ProgressIndicator => .ok .FileLoading
  | .TextDataReadStart, .NodeStart => .ok .NodeDataReadStart
  -- Transitions from TextDataReadContinue
  | .TextDataReadContinue, .Prompt => .ok .DataReadEnd
  | .TextDataReadContinue, .PromptWithError => .ok .DataReadEndPendingError
  | .TextDataReadContinue, .Data _ => .ok .TextDataReadContinue
  | .TextDataReadContinue, .ProgressIndicator => .ok .FileLoading
  -- Transitions from DataReadEnd
  | .DataReadEnd, .Prompt => .ok .DataReadEnd
  | .DataReadEnd, .PromptWithError => .ok .DataReadEndPendingError
  | .DataReadEnd, .TspErrorStart => .ok .ErrorReadStart
  | .DataReadEnd, .Data _ => .ok .TextDataReadStart
  | .DataReadEnd, .ProgressIndicator => .ok .FileLoading
  | .DataReadEnd, .NodeStart => .ok .NodeDataReadStart
  -- Transitions from DataReadEndPendingError
  | .DataReadEndPendingError, .Prompt => .ok .DataReadEnd
  | .DataReadEndPendingError, .PromptWithError => .ok .DataReadEndPendingError
  | .DataReadEndPendingError, .TspErrorStart => .ok .ErrorReadStart
  | .DataReadEndPendingError, .Data _ => .ok .TextDataReadStart
  | .DataReadEndPendingError, .ProgressIndicator => .ok .FileLoading
  -- Transitions from ErrorReadStart
  | .ErrorReadStart, .TspError _ => .ok .ErrorReadContinue
  | .ErrorReadStart, .TspErrorEnd => .ok .ErrorReadEnd
  | .ErrorReadStart, .ProgressIndicator => .ok .FileLoading
  -- Transitions from ErrorReadContinue
  | .ErrorReadContinue, .TspError _ => .ok .ErrorReadContinue
  | .ErrorReadContinue, .TspErrorEnd => .ok .ErrorReadEnd
  | .ErrorReadContinue, .ProgressIndicator => .ok .FileLoading
  -- Transitions from ErrorReadEnd
  | .ErrorReadEnd, .Prompt => .ok .DataReadEnd
  | .ErrorReadEnd, .PromptWithError => .ok .DataReadEndPendingError
  | .ErrorReadEnd, .TspErrorStart => .ok .ErrorReadStart
  | .ErrorReadEnd, .Data _ => .ok .TextDataReadStart
  | .ErrorReadEnd, .ProgressIndicator => .ok .FileLoading
  -- Transitions from FileLoading
  | .FileLoading, .Prompt => .ok .Init
  | .FileLoading, .PromptWithError => .ok .DataReadEndPendingError
  | .FileLoading, .TspErrorStart => .ok .ErrorReadStart
  | .FileLoading, .Data _ => .ok .TextDataReadStart
  | .FileLoading, .ProgressIndicator => .ok .FileLoading
  -- Transitions from NodeDataReadStart
  | .NodeDataReadStart, .Data _ => .ok .NodeDataReadContinue
  | .NodeDataReadStart, .ProgressIndicator => .ok .FileLoading
  | .NodeDataReadStart, .NodeEnd => .ok .NodeDataReadEnd
  -- Transitions from NodeDataReadContinue
  | .NodeDataReadContinue, .Data _ => .ok .NodeDataReadContinue
  | .NodeDataReadContinue, .ProgressIndicator => .ok .FileLoading
  | .NodeDataReadContinue, .NodeEnd => .ok .NodeDataReadEnd
  -- Transitions from NodeDataReadEnd
  | .NodeDataReadEnd, .Prompt => .ok .DataReadEnd
  | .NodeDataReadEnd, .PromptWithError => .ok .DataReadEndPendingError
  | .NodeDataReadEnd, .TspErrorStart => .ok .ErrorReadStart
  | .NodeDataReadEnd, .Data _ => .ok .TextDataReadStart
  | .NodeDataReadEnd, .ProgressIndicator => .ok .FileLoading
  | .NodeDataReadEnd, .NodeStart => .ok .NodeDataReadStart
  -- Erroneous transitions that require recovery
  | s, i => .error (.stateMachineTransitionError s i)

/-- Constructor tag of a frame; the transition table depends only on this. -/
inductive FrameKind where
  | prompt
  | promptWithError
  | tspErrorStart
  | tspError
  | tspErrorEnd
  | data
  | progressIndicator
  | nodeStart
  | nodeEnd
deriving DecidableEq

/-- The constructor tag of a ParsedResponse. -/
def kindOf : ParsedResponse → FrameKind
  | .Prompt => .prompt
  | .PromptWithError => .promptWithError
  | .TspErrorStart => .tspErrorStart
  | .TspError _ => .tspError
  | .TspErrorEnd => .tspErrorEnd
  | .Data _ => .data
  | .ProgressIndicator => .progressIndicator
  | .NodeStart => .nodeStart
  | .NodeEnd => .nodeEnd

/-- The defined cells of the spec's transition table (section 4.2), as a
flat relation: (source state, input kind, target state).  Cells marked
with the bottom symbol in the spec are simply absent. -/
def specTransitionTable : List (ReadState × FrameKind × ReadState) :=
  [(.Init, .prompt, .DataReadEnd),
   (.Init, .promptWithError, .DataReadEndPendingError),
   (.Init, .tspErrorStart, .ErrorReadStart),
   (.Init, .data, .TextDataReadStart),
   (.Init, .progressIndicator, .FileLoading),
   (.Init, .nodeStart, .NodeDataReadStart),
   (.TextDataReadStart, .prompt, .DataReadEnd),
   (.TextDataReadStart, .promptWithError, .DataReadEndPendingError),
   (.TextDataReadStart, .tspErrorStart, .ErrorReadStart),
   (.TextDataReadStart, .data, .TextDataReadContinue),
   (.TextDataReadStart, .progressIndicator, .FileLoading),
   (.TextDataReadStart, .nodeStart, .NodeDataReadStart),
   (.TextDataReadContinue, .prompt, .DataReadEnd),
   (.TextDataReadContinue, .promptWithError, .DataReadEndPendingError),
   (.TextDataReadContinue, .data, .TextDataReadContinue),
   (.TextDataReadContinue, .progressIndicator, .FileLoading),
   (.DataReadEnd, .prompt, .DataReadEnd),
   (.DataReadEnd, .promptWithError, .DataReadEndPendingError),
   (.DataReadEnd, .tspErrorStart, .ErrorReadStart),
   (.DataReadEnd, .data, .TextDataReadStart),
   (.DataReadEnd, .progressIndicator, .FileLoading),
   (.DataReadEnd, .nodeStart, .NodeDataReadStart),
   (.DataReadEndPendingError, .prompt, .DataReadEnd),
   (.DataReadEndPendingError, .promptWithError, .DataReadEndPendingError),
   (.DataReadEndPendingError, .tspErrorStart, .ErrorReadStart),
   (.DataReadEndPendingError, .data, .TextDataReadStart),
   (.DataReadEndPendingError, .progressIndicator, .FileLoading),
   (.ErrorReadStart, .tspError, .ErrorReadContinue),
   (.ErrorReadStart, .tspErrorEnd, .ErrorReadEnd),
   (.ErrorReadStart, .progressIndicator, .FileLoading),
   (.ErrorReadContinue, .tspError, .ErrorReadContinue),
   (.ErrorReadContinue, .tspErrorEnd, .ErrorReadEnd),
   (.ErrorReadContinue, .progressIndicator, .FileLoading),
   (.ErrorReadEnd, .prompt, .DataReadEnd),
   (.ErrorReadEnd, .promptWithError, .DataReadEndPendingError),
   (.ErrorReadEnd, .tspErrorStart, .ErrorReadStart),
   (.ErrorReadEnd, .data, .TextDataReadStart),
   (.ErrorReadEnd, .progressIndicator, .FileLoading),
   (.FileLoading, .prompt, .Init),
   (.FileLoading, .promptWithError, .DataReadEndPendingError),
   (.FileLoading, .tspErrorStart, .ErrorReadStart),
   (.FileLoading, .data, .TextDataReadStart),
   (.FileLoading, .progressIndicator, .FileLoading),
   (.NodeDataReadStart, .data, .NodeDataReadContinue),
   (.NodeDataReadStart, .progressIndicator, .FileLoading),
   (.NodeDataReadStart, .nodeEnd, .NodeDataReadEnd),
   (.NodeDataReadContinue, .data, .NodeDataReadContinue),
   (.NodeDataReadContinue, .progressIndicator, .FileLoading),
   (.NodeDataReadContinue, .nodeEnd, .NodeDataReadEnd),
   (.NodeDataReadEnd, .prompt, .DataReadEnd),
   (.NodeDataReadEnd, .promptWithError, .DataReadEndPendingError),
   (.NodeDataReadEnd, .tspErrorStart, .ErrorReadStart),
   (.NodeDataReadEnd, .data, .TextDataReadStart),
   (.NodeDataReadEnd, .progressIndicator, .FileLoading),
   (.NodeDataReadEnd, .nodeStart, .NodeDataReadStart)]

/-- Target of the spec table at a (state, input-kind) cell, if defined. -/
def specTableLookup (s : ReadState) (k : FrameKind) : Option ReadState :=
  (specTransitionTable.find? (fun r => r.1 == s && r.2.1 == k)).map
    (fun r => r.2.2)

namespace Repl

/-- Repl::state_action from repl.rs, arm for arm in source order (Lean's
match, like Rust's, takes the first matching arm).  The source's final
alternative ends in a wildcard, so it is written here as the catch-all
returning Action::None. -/
def state_action (prev_state state : Option ReadState) : Action :=
  match prev_state, state with
  | none, some st =>
    match st with
    | .Init | .DataReadEnd | .ErrorReadEnd => .Prompt
    | .DataReadEndPendingError => .GetError
    | .TextDataReadStart | .TextDataReadContinue => .PrintText
    | .ErrorReadContinue => .PrintError
    | .NodeDataReadStart | .NodeDataReadContinue => .GetNodeDetails
    | .NodeDataReadEnd => .Prompt
    | .ErrorReadStart | .FileLoading => .None
  | _, none => .None
  | some p, some st =>
    match p, st with
    | _, .ErrorReadContinue => .PrintError
    | _, .DataReadEndPendingError => .GetError
    -- Action::GetNodeDetails
    | .Init, .NodeDataReadContinue
    | .TextDataReadStart, .NodeDataReadContinue
    | .TextDataReadContinue, .NodeDataReadContinue
    | .DataReadEnd, .NodeDataReadContinue
    | .ErrorReadEnd, .NodeDataReadContinue
    | .FileLoading, .NodeDataReadContinue
    | .NodeDataReadStart, .NodeDataReadContinue => .GetNodeDetails
    -- Action::PrintText
    | .Init, .TextDataReadStart
    | .TextDataReadStart, .TextDataReadStart
    | .TextDataReadContinue, .TextDataReadStart
    | .DataReadEnd, .TextDataReadStart
    | .ErrorReadEnd, .TextDataReadStart
    | .FileLoading, .TextDataReadStart
    | .NodeDataReadStart, .TextDataReadStart
    | .NodeDataReadContinue, .TextDataReadStart
    | .NodeDataReadEnd, .TextDataReadStart
    | .Init, .TextDataReadContinue
    | .TextDataReadStart, .TextDataReadContinue
    | .TextDataReadContinue, .TextDataReadContinue
    | .DataReadEnd, .TextDataReadContinue
    | .ErrorReadEnd, .TextDataReadContinue
    | .FileLoading, .TextDataReadContinue
    | .NodeDataReadStart, .TextDataReadContinue
    | .NodeDataReadContinue, .TextDataReadContinue
    | .NodeDataReadEnd, .TextDataReadContinue => .PrintText
    -- Action::Prompt
    | .TextDataReadStart, .Init
    | .TextDataReadContinue, .Init
    | .ErrorReadStart, .Init
    | .ErrorReadContinue, .Init
    | .FileLoading, .Init
    | _, .DataReadEnd
    | _, .ErrorReadEnd
    | _, .NodeDataReadEnd => .Prompt
    -- The source's last alternative is
    -- (Init|DataReadEnd|ErrorReadEnd, Init) | (DataReadEndPendingError,
    -- Init|TextDataReadStart|TextDataReadContinue) | (ErrorReadStart |
    -- ErrorReadContinue, TextDataReadStart|TextDataReadContinue) |
    -- (_, FileLoading | ErrorReadStart | _) => Action::None;
    -- its trailing wildcard makes it a catch-all.
    | _, _ => .None

/-- The mutable locals threaded through the frame loop of
Repl::handle_data: the prompt flag, the two state cells and the get_error
flag. -/
structure LoopState where
  prompt : Bool
  prevState : Option ReadState
  readState : Option ReadState
  getError : Bool
deriving DecidableEq

/-- The frame loop of Repl::handle_data.  Besides the final LoopState it
returns, as ghost instrumentation, the list of actions the loop derived in
order (the print and node-configuration side effects of those actions are
not modelled).  A transition error is returned immediately, mirroring the
question-mark operator on next_state in the source. -/
def processFrames :
    List ParsedResponse → LoopState →
    Except InstrumentReplError (LoopState × List Action)
  | [], ls => .ok (ls, [])
  | f :: rest, ls =>
    let prev := ls.readState
    match ReadState.next_state (prev.getD .Init) f with
    | .error e => .error e
    | .ok ns =>
      let st := some ns
      let a := state_action prev st
      let ls' : LoopState :=
        { prompt := if a = .Prompt then true else ls.prompt
          prevState := prev
          readState := st
          getError := if a = .GetError then true else ls.getError }
      match processFrames rest ls' with
      | .error e => .error e
      | .ok (lsF, as) => .ok (lsF, a :: as)

/-- Result of one Repl::handle_data call: the returned prompt flag, the two
state cells after the call, the number of times the out-of-band error-fetch
subprotocol (Repl::get_errors) was invoked, and the derived actions. -/
structure HandleResult where
  prompt : Bool
  prevState : Option ReadState
  readState : Option ReadState
  errorFetches : Nat
  actions : List Action
deriving DecidableEq

/-- The emptiness guard of Repl::handle_data: the lossy view of the chunk
with trailing NUL characters stripped is non-empty, i.e. some byte is
non-zero. -/
def hasContent (data : List Nat) : Bool :=
  !((data.reverse.dropWhile (fun b => b == 0)).isEmpty)

/-- Repl::handle_data from repl.rs.  The chunk is tokenized and each frame
is fed to the state machine; a transition error propagates out (the
question-mark operator in the source).  If any action was GetError the
out-of-band fetch runs exactly once after the loop, the prompt flag is
forced on and the read state is reset to DataReadEnd.  The fetch itself is
instrument I/O and is modelled only by its invocation count. -/
def handle_data (data : List Nat) (prompt : Bool)
    (prevState readState : Option ReadState) :
    Except InstrumentReplError HandleResult :=
  if hasContent data then
    match processFrames (tokenize data)
        ⟨prompt, prevState, readState, false⟩ with
    | .error e => .error e
    | .ok (ls, as) =>
      if ls.getError then
        .ok ⟨true, ls.prevState, some .DataReadEnd, 1, as⟩
      else
        .ok ⟨ls.prompt, ls.prevState, ls.readState, 0, as⟩
  else
    .ok ⟨prompt, prevState, readState, 0, []⟩

end Repl

/-- Instrument time record from tsp_error.rs. -/
structure InstrumentTime where
  secs : Nat
  nanos : Nat
deriving DecidableEq

/-- Structured error record from tsp_error.rs; the message is kept as its
UTF-8 bytes. -/
structure TspError where
  error_code : Int
  message : List Nat
  severity : Nat
  node_id : Int
  time : Option InstrumentTime
deriving DecidableEq

/-- The record-collection stage of Repl::get_errors: every TspError frame's
payload is trimmed and handed to serde_json::from_str; the question-mark
operator makes the first failing record abort the whole collection.  The
external serde_json parser is abstracted as the fromStr parameter. -/
def collectTspErrors
    (fromStr : List Nat → Except InstrumentReplError TspError) :
    List ParsedResponse → Except InstrumentReplError (List TspError)
  | [] => .ok []
  | f :: rest =>
    match f with
    | .TspError e =>
      match fromStr (trimUtf8 e) with
      | .error d => .error d
      | .ok x =>
        match collectTspErrors fromStr rest with
        | .error d => .error d
        | .ok xs => .ok (x :: xs)
    | _ => collectTspErrors fromStr rest

/-- The parsing stage of Repl::get_errors applied to the accumulated dump
bytes: tokenize, then collect every TspError record. -/
def get_errors_parse
    (fromStr : List Nat → Except InstrumentReplError TspError)
    (errBytes : List Nat) : Except InstrumentReplError (List TspError) :=
  collectTspErrors fromStr (tokenize errBytes)

/-- Outcome of one instrument read, abstracting the transport. -/
inductive ReadOutcome where
  | ok (chunk : List Nat)
  | wouldBlock
  | fail (msg : String)
deriving DecidableEq

/-- accumulate_and_search from repl.rs: truncate the buffer at its first
NUL, append it to the accumulator, and report whether the accumulator now
contains the needle. -/
def accumulate_and_search (accumulator buf needle : List Nat) :
    List Nat × Bool :=
  let b := buf.takeWhile (fun x => !(x == 0))
  let acc' := if b.isEmpty then accumulator else accumulator ++ b
  (acc', (fwAux needle acc').isSome)

/-- clear_output_queue from repl.rs, with the instrument byte stream
abstracted as an indexed sequence of read outcomes.  The Rust for-loop over
0..max_attempts becomes recursion on the remaining attempt count; a
WouldBlock read issues continue, which advances the loop and therefore
consumes an attempt; any other read error propagates; when all attempts are
exhausted the terminal Other error is returned. -/
def clear_output_queue (reads : Nat → ReadOutcome) (needle : List Nat) :
    Nat → Nat → List Nat → Except InstrumentReplError Unit
  | 0, _, _ => .error (.other "unable to clear instrument output queue")
  | attempts + 1, idx, acc =>
    match reads idx with
    | .wouldBlock => clear_output_queue reads needle attempts (idx + 1) acc
    | .fail e => .error (.ioError e)
    | .ok buf =>
      let r := accumulate_and_search acc buf needle
      if r.2 then .ok () else clear_output_queue reads needle attempts (idx + 1) r.1

/-- Strip trailing NUL bytes, the byte-level view of
trim_end_matches(char::from(0)) on the lossy string. -/
def trimEndNul (l : List Nat) : List Nat :=
  (l.reverse.dropWhile (fun b => b == 0)).reverse

/-- Bytes of the token the error-dump accumulation loop waits for. -/
def doneNeedle : List Nat := [62, 68, 79, 78, 69]

/-- The accumulation loop of Repl::get_errors, fueled: the Rust loop has no
attempt bound and breaks only when the accumulator contains the DONE token,
so the model returns none when the given number of iterations did not reach
the break (the source loop would still be running).  A read error
propagates through the question-mark operator; the source does not handle
WouldBlock here, so it too surfaces as an error. -/
def get_errors_accum (reads : Nat → ReadOutcome) :
    Nat → Nat → List Nat → Option (Except InstrumentReplError (List Nat))
  | 0, _, _ => none
  | fuel + 1, idx, err =>
    match reads idx with
    | .wouldBlock => some (.error (.ioError "would block"))
    | .fail e => some (.error (.ioError e))
    | .ok buf =>
      let chunk := trimEndNul buf
      if chunk.isEmpty then get_errors_accum reads fuel (idx + 1) err
      else
        let err' := err ++ chunk
        if (fwAux doneNeedle err').isSome then some (.ok err')
        else get_errors_accum reads fuel (idx + 1) err'

/-- A filesystem path, as its components; PathBuf::parent maps the empty
path to None and otherwise drops the last component. -/
abbrev FsPath := List String

/-- Minimal filesystem state for the node-details persistence logic:
directories that exist and an association of file paths to contents. -/
structure FileSystem where
  dirs : List FsPath
  files : List (FsPath × List Nat)
deriving DecidableEq

/-- Path::is_file against the model. -/
def FileSystem.isFile (fs : FileSystem) (p : FsPath) : Bool :=
  (fs.files.lookup p).isSome

/-- Path::is_dir against the model. -/
def FileSystem.isDir (fs : FileSystem) (p : FsPath) : Bool :=
  fs.dirs.contains p

/-- fs::create_dir_all: the directory and all its ancestors come to exist. -/
def FileSystem.createDirAll (fs : FileSystem) (p : FsPath) : FileSystem :=
  { fs with dirs := fs.dirs ++ (List.range (p.length + 1)).map (p.take ·) }

/-- Set (create or truncate-and-write) a file's contents. -/
def FileSystem.setFile (fs : FileSystem) (p : FsPath) (content : List Nat) :
    FileSystem :=
  { fs with files := (p, content) :: fs.files.filter (fun q => !(q.1 == p)) }

/-- PathBuf::parent on the component model. -/
def parentOf (p : FsPath) : Option FsPath :=
  match p with
  | [] => none
  | _ => some p.dropLast

namespace Repl

/-- Repl::write_json_data from repl.rs, over the filesystem model.  The
external serde_json value type, parser and pretty-printer are abstracted as
J, parse and pretty; parse returning none models from_str failing.  The
order of effects follows the source: parent checks, create_dir_all if
needed, then File::create (which truncates the file to empty; the model
lets creation succeed), and only then the JSON parse, whose failure
propagates through the question-mark operator after the truncation. -/
def write_json_data {J : Type} (parse : List Nat → Option J)
    (pretty : J → List Nat) (fs : FileSystem) (file_path : FsPath)
    (input_line : List Nat) : FileSystem × Except InstrumentReplError Unit :=
  match parentOf file_path with
  | none =>
    (fs, .error (.ioError "given path did not have a containing folder"))
  | some path =>
    if fs.isFile path then
      (fs, .error (.ioError "the parent folder is already a file"))
    else
      let fs1 := if fs.isDir path then fs else fs.createDirAll path
      let fs2 := fs1.setFile file_path []
      match parse (trimUtf8 input_line) with
      | none => (fs2, .error (.deserializationError (trimUtf8 input_line)))
      | some j => (fs2.setFile file_path (pretty j), .ok ())

/-- Repl::update_node_config_json from repl.rs: only Data frames are
persisted; a write_json_data error is reported to stderr (returned here as
a true flag) and swallowed. -/
def update_node_config_json {J : Type} (parse : List Nat → Option J)
    (pretty : J → List Nat) (fs : FileSystem) (file_path : FsPath)
    (resp : ParsedResponse) : FileSystem × Bool :=
  match resp with
  | .Data d =>
    match write_json_data parse pretty fs file_path d with
    | (fs', .error _) => (fs', true)
    | (fs', .ok _) => (fs', false)
  | _ => (fs, false)

end Repl

/-- Wire form of one frame: each sentinel frame is its sentinel's literal
bytes, a Data frame is its payload verbatim, a TspError record is the
record sentinel followed by its text. -/
def wireF : ParsedResponse → List Nat
  | .Prompt => promptBytes
  | .PromptWithError => promptErrBytes
  | .TspErrorStart => ermStartBytes
  | .TspError t => ermBytes ++ t
  | .TspErrorEnd => ermDoneBytes
  | .Data d => d
  | .ProgressIndicator => progressBytes
  | .NodeStart => nodeStartBytes
  | .NodeEnd => nodeEndBytes

/-- Concatenation of the wire forms of a frame sequence. -/
def wireSeq : List ParsedResponse → List Nat
  | [] => []
  | f :: rest => wireF f ++ wireSeq rest

/-- Whether a frame is a Data frame. -/
def isDataFrame : ParsedResponse → Bool
  | .Data _ => true
  | _ => false

/-- A payload contains no occurrence of any sentinel string. -/
def sentinelFree (p : List Nat) : Bool :=
  findNeedles.all (fun n => (fwAux n p).isNone)

/-- The conditions claim C9 places on a single frame: Data payloads are
sentinel-free, non-empty, and do not begin with ASCII whitespace or NUL. -/
def origGoodFrame : ParsedResponse → Bool
  | .Data p =>
    !p.isEmpty && sentinelFree p &&
      (match p.head? with
       | some b => !(b == 0) && !(isAsciiWsByte b)
       | none => false)
  | _ => true

/-- No two adjacent Data frames. -/
def noAdjData : List ParsedResponse → Bool
  | [] => true
  | [_] => true
  | a :: b :: rest =>
    !(isDataFrame a && isDataFrame b) && noAdjData (b :: rest)

/-- The hypotheses of claim C9 exactly as stated: every frame is good and
no two Data frames are adjacent. -/
def origGood (fs : List ParsedResponse) : Bool :=
  fs.all origGoodFrame && noAdjData fs

/-- Head conditions of the amended round-trip law for the frame at the
front of a sequence.  Sentinel frames need nothing; TspError frames are
excluded (their payload is re-trimmed and re-delimited on parse, so they do
not round-trip in general); a Data payload must be non-empty, must not
begin with NUL or with any whitespace-character encoding (the tokenizer
trims the whole remaining stream before sentinel matching), and the
earliest sentinel occurrence in the remaining stream must sit exactly at
the payload's end - equivalently, the payload neither contains a sentinel
nor forms one across the boundary with the following frames; finally no
Data frame directly follows another. -/
def goodHead (f : ParsedResponse) (rest : List ParsedResponse) : Bool :=
  match f with
  | .TspError _ => false
  | .Data p =>
    !p.isEmpty &&
    !(p.head? == some 0) &&
    (firstWs (p ++ wireSeq rest)).isNone &&
    (find_next (p ++ wireSeq rest)
      == if rest.isEmpty then none else some p.length) &&
    (match rest.head? with
     | some (.Data _) => false
     | _ => true)
  | _ => true

/-- The amended round-trip hypothesis on a whole frame sequence. -/
def goodSeq : List ParsedResponse → Bool
  | [] => true
  | f :: rest => goodHead f rest && goodSeq rest

/-- A read trace whose first read would block and whose second read returns
a chunk containing the needle bytes 84, 48. -/
def blockThenOkReads : Nat → ReadOutcome :=
  fun i => if i = 0 then .wouldBlock else .ok [84, 48]

/-- A read trace that always returns the single byte 120, which never
produces the DONE token. -/
def alwaysXReads : Nat → ReadOutcome :=
  fun _ => .ok [120]

/-- A sample structured error record. -/
def sampleTspError : TspError :=
  { error_code := -285, message := [98, 97, 100], severity := 0,
    node_id := 1, time := none }

/-- A concrete stand-in for serde_json::from_str that accepts exactly the
record bytes 103, 111, 111, 100 and rejects everything else. -/
def fromStrGoodOnly : List Nat → Except InstrumentReplError TspError :=
  fun s =>
    if s = [103, 111, 111, 100] then .ok sampleTspError
    else .error (.deserializationError s)

/-! Lemmas about the tokenizer's search and trim primitives. -/

theorem parse_nil : parse_next [] = none := rfl

theorem drop_if_eq (k : Nat) (l : List Nat) :
    (if k < l.length then l.drop k else []) = l.drop k := by
  split
  · rfl
  · exact (List.drop_eq_nil_of_le (by omega)).symm

theorem fwAux_of_isPrefixOf {needle l : List Nat} (hne : needle ≠ [])
    (h : needle.isPrefixOf l = true) : fwAux needle l = some 0 := by
  cases l with
  | nil =>
    cases needle with
    | nil => exact absurd rfl hne
    | cons a t => simp [List.isPrefixOf] at h
  | cons b t => simp [fwAux, h]

theorem isPrefixOf_of_fwAux_zero {needle l : List Nat}
    (h : fwAux needle l = some 0) : needle.isPrefixOf l = true := by
  cases l with
  | nil => simp [fwAux] at h
  | cons b t =>
    by_cases hp : needle.isPrefixOf (b :: t) = true
    · exact hp
    · exfalso
      simp [fwAux, hp] at h

theorem findFold_le_init (input : List Nat) :
    ∀ (search : List (List Nat)) (low : Nat),
      search.foldl
        (fun acc i =>
          match fwAux i input with
          | none => acc
          | some t => min t acc) low ≤ low
  | [], _ => le_refl _
  | n :: s, low => by
    simp only [List.foldl_cons]
    refine le_trans (findFold_le_init input s _) ?h
    cases hf : fwAux n input with
    | none => exact le_refl _
    | some t => exact min_le_right _ _

theorem findFold_le_occ (input : List Nat) :
    ∀ (search : List (List Nat)) (low : Nat) (n : List Nat) (t : Nat),
      n ∈ search → fwAux n input = some t →
      search.foldl
        (fun acc i =>
          match fwAux i input with
          | none => acc
          | some t => min t acc) low ≤ t
  | [], _, n, _, hmem, _ => absurd hmem (List.not_mem_nil n)
  | m :: s, low, n, t, hmem, hfw => by
    simp only [List.foldl_cons]
    rcases List.mem_cons.mp hmem with rfl | hmem'
    · rw [hfw]
      exact le_trans (findFold_le_init input s _) (min_le_left _ _)
    · exact findFold_le_occ input s _ n t hmem' hfw

theorem findFold_mem (input : List Nat) :
    ∀ (search : List (List Nat)) (low k : Nat),
      search.foldl
        (fun acc i =>
          match fwAux i input with
          | none => acc
          | some t => min t acc) low = k →
      k ≠ low → ∃ n ∈ search, fwAux n input = some k
  | [], low, k, h, hne => by
    simp only [List.foldl_nil] at h
    exact absurd h.symm hne
  | m :: s, low, k, h, hne => by
    simp only [List.foldl_cons] at h
    cases hf : fwAux m input with
    | none =>
      simp only [hf] at h
      obtain ⟨n, hn, hfw⟩ := findFold_mem input s low k h hne
      exact ⟨n, List.mem_cons_of_mem _ hn, hfw⟩
    | some t =>
      simp only [hf] at h
      by_cases hk : k = min t low
      · rcases Nat.le_total t low with hle | hle
        · have ht : min t low = t := Nat.min_eq_left hle
          refine ⟨m, List.mem_cons_self m s, ?h⟩
          rw [hf, hk, ht]
        · have ht : min t low = low := Nat.min_eq_right hle
          rw [ht] at hk
          exact absurd hk hne
      · obtain ⟨n, hn, hfw⟩ := findFold_mem input s (min t low) k h hk
        exact ⟨n, List.mem_cons_of_mem _ hn, hfw⟩

theorem find_first_of_zero_of_prefix {input : List Nat} {S : List (List Nat)}
    {n : List Nat} (hmem : n ∈ S) (hne : n ≠ [])
    (hpref : n.isPrefixOf input = true) :
    find_first_of input S = some 0 := by
  have hfw := fwAux_of_isPrefixOf hne hpref
  have hle := findFold_le_occ input S input.length n 0 hmem hfw
  have h0 := Nat.le_zero.mp hle
  have hlen : 0 < input.length := by
    cases input with
    | nil =>
      cases n with
      | nil => exact absurd rfl hne
      | cons a t => simp [List.isPrefixOf] at hpref
    | cons b t => simp
  simp only [find_first_of, h0, hlen, if_pos]

theorem find_first_of_mem {input : List Nat} {S : List (List Nat)} {k : Nat}
    (h : find_first_of input S = some k) :
    k < input.length ∧ ∃ n ∈ S, fwAux n input = some k := by
  simp only [find_first_of] at h
  split at h
  · cases h
    refine ⟨by assumption, findFold_mem input S input.length _ rfl ?h⟩
    omega
  · cases h

theorem not_prefix_of_find {input : List Nat} {n : List Nat}
    (hne : n ≠ []) (hmem : n ∈ findNeedles)
    (h : find_next input = none ∨ ∃ k, find_next input = some k ∧ 0 < k) :
    n.isPrefixOf input = false := by
  by_cases hp : n.isPrefixOf input = true
  · exfalso
    have h0 := find_first_of_zero_of_prefix hmem hne hp
    rcases h with hnone | ⟨k, hk, hkpos⟩
    · rw [find_next] at hnone
      rw [h0] at hnone
      cases hnone
    · rw [find_next] at hk
      rw [h0] at hk
      cases hk
      omega
  · exact Bool.not_eq_true _ ▸ (by simpa using hp)

theorem findNeedles_heads : ∀ n ∈ findNeedles, n ≠ [] ∧
    (n.head? = some 84 ∨ n.head? = some 69 ∨ n.head? = some 62 ∨
     n.head? = some 78) := by decide

theorem firstWs_none_of_sentinel_head {b : Nat} (l : List Nat)
    (hb : b = 84 ∨ b = 69 ∨ b = 62 ∨ b = 78) : firstWs (b :: l) = none := by
  rcases hb with rfl | rfl | rfl | rfl <;>
    simp [firstWs, wsSeqs, List.find?, List.isPrefixOf]

theorem trimStartUtf8_of_none {l : List Nat} (h : firstWs l = none) :
    trimStartUtf8 l = l := by
  cases l with
  | nil => rfl
  | cons b t => simp [trimStartUtf8, trimStartUtf8Aux, h]

theorem head_of_isPrefixOf {a : Nat} {n l : List Nat}
    (h : (a :: n).isPrefixOf l = true) : l.head? = some a := by
  cases l with
  | nil => simp [List.isPrefixOf] at h
  | cons b t =>
    simp [List.isPrefixOf] at h
    simp [h.1]

theorem parse_next_shrink {input r : List Nat} {f : ParsedResponse}
    (h : parse_next input = some (f, r)) : r.length < input.length := by
  have hlen : 0 < input.length := by
    cases hi : input with
    | nil => rw [hi, parse_nil] at h; cases h
    | cons b t => simp
  simp only [parse_next] at h
  by_cases hemp : (input.isEmpty || input.head? == some 0) = true
  · rw [if_pos hemp] at h; cases h
  · rw [if_neg hemp] at h
    by_cases hn1 : nodeStartBytes.isPrefixOf (trimStartUtf8 input) = true
    · rw [if_pos hn1] at h
      simp only [Option.some.injEq, Prod.mk.injEq] at h
      obtain ⟨-, hr⟩ := h
      subst hr
      rw [drop_if_eq]
      simp only [List.length_drop]
      omega
    · rw [if_neg hn1] at h
      by_cases hn2 : nodeEndBytes.isPrefixOf (trimStartUtf8 input) = true
      · rw [if_pos hn2] at h
        simp only [Option.some.injEq, Prod.mk.injEq] at h
        obtain ⟨-, hr⟩ := h
        subst hr
        rw [drop_if_eq]
        simp only [List.length_drop]
        omega
      · rw [if_neg hn2] at h
        by_cases hn3 : promptBytes.isPrefixOf (trimStartUtf8 input) = true
        · rw [if_pos hn3] at h
          simp only [Option.some.injEq, Prod.mk.injEq] at h
          obtain ⟨-, hr⟩ := h
          subst hr
          rw [drop_if_eq]
          simp only [List.length_drop]
          omega
        · rw [if_neg hn3] at h
          by_cases hn4 : promptErrBytes.isPrefixOf (trimStartUtf8 input) = true
          · rw [if_pos hn4] at h
            simp only [Option.some.injEq, Prod.mk.injEq] at h
            obtain ⟨-, hr⟩ := h
            subst hr
            rw [drop_if_eq]
            simp only [List.length_drop]
            omega
          · rw [if_neg hn4] at h
            by_cases hn5 : ermStartBytes.isPrefixOf (trimStartUtf8 input) = true
            · rw [if_pos hn5] at h
              simp only [Option.some.injEq, Prod.mk.injEq] at h
              obtain ⟨-, hr⟩ := h
              subst hr
              rw [drop_if_eq]
              simp only [List.length_drop]
              omega
            · rw [if_neg hn5] at h
              by_cases hn6 : ermDoneBytes.isPrefixOf (trimStartUtf8 input) = true
              · rw [if_pos hn6] at h
                simp only [Option.some.injEq, Prod.mk.injEq] at h
                obtain ⟨-, hr⟩ := h
                subst hr
                rw [drop_if_eq]
                simp only [List.length_drop]
                omega
              · rw [if_neg hn6] at h
                by_cases hn7 : ermBytes.isPrefixOf (trimStartUtf8 input) = true
                · rw [if_pos hn7] at h
                  by_cases h4 : 4 < input.length
                  · rw [if_pos h4] at h
                    cases hfind : find_next (input.drop 4) with
                    | none =>
                      rw [hfind] at h
                      simp only [Option.some.injEq, Prod.mk.injEq] at h
                      obtain ⟨-, hr⟩ := h
                      subst hr
                      simpa using hlen
                    | some nt =>
                      rw [hfind] at h
                      simp only [Option.some.injEq, Prod.mk.injEq] at h
                      obtain ⟨-, hr⟩ := h
                      subst hr
                      simp only [List.length_drop]
                      omega
                  · rw [if_neg h4] at h
                    simp only [Option.some.injEq, Prod.mk.injEq] at h
                    obtain ⟨-, hr⟩ := h
                    subst hr
                    simpa using hlen
                · rw [if_neg hn7] at h
                  by_cases hn8 : progressBytes.isPrefixOf (trimStartUtf8 input) = true
                  · rw [if_pos hn8] at h
                    simp only [Option.some.injEq, Prod.mk.injEq] at h
                    obtain ⟨-, hr⟩ := h
                    subst hr
                    rw [drop_if_eq]
                    simp only [List.length_drop]
                    omega
                  · rw [if_neg hn8] at h
                    cases hfind : find_next input with
                    | none =>
                      rw [hfind] at h
                      simp only [Option.some.injEq, Prod.mk.injEq] at h
                      obtain ⟨-, hr⟩ := h
                      subst hr
                      simpa using hlen
                    | some nt =>
                      rw [hfind] at h
                      simp only [Option.some.injEq, Prod.mk.injEq] at h
                      obtain ⟨-, hr⟩ := h
                      subst hr
                      simp only [List.length_drop]
                      rcases Nat.eq_zero_or_pos nt with rfl | hpos
                      · exfalso
                        obtain ⟨-, n, hmem, hfw⟩ := find_first_of_mem hfind
                        have hpref := isPrefixOf_of_fwAux_zero hfw
                        obtain ⟨hne, hhead⟩ := findNeedles_heads n hmem
                        cases n with
                        | nil => exact hne rfl
                        | cons a n' =>
                          have hina := head_of_isPrefixOf hpref
                          simp only [List.head?] at hhead
                          cases hi : input with
                          | nil => rw [hi] at hina; cases hina
                          | cons b t =>
                            rw [hi] at hina
                            simp only [List.head?, Option.some.injEq] at hina
                            have hb : b = 84 ∨ b = 69 ∨ b = 62 ∨ b = 78 := by
                              rcases hhead with ha | ha | ha | ha <;>
                                cases ha <;> omega
                            have htrim : trimStartUtf8 input = input := by
                              rw [hi]
                              exact trimStartUtf8_of_none
                                (firstWs_none_of_sentinel_head t hb)
                            rw [htrim] at hn1 hn2 hn3 hn4 hn5 hn6 hn7 hn8
                            simp only [findNeedles, List.mem_cons,
                              List.not_mem_nil, or_false] at hmem
                            rcases hmem with he | he | he | he | he | he | he | he
                            · exact hn3 (he ▸ hpref)
                            · exact hn4 (he ▸ hpref)
                            · exact hn5 (he ▸ hpref)
                            · exact hn6 (he ▸ hpref)
                            · exact hn7 (he ▸ hpref)
                            · exact hn8 (he ▸ hpref)
                            · exact hn1 (he ▸ hpref)
                            · exact hn2 (he ▸ hpref)
                      · omega

theorem trimAsciiStart_length_le (l : List Nat) :
    (trimAsciiStart l).length ≤ l.length := by
  simp only [trimAsciiStart]
  exact (List.dropWhile_suffix _).length_le

theorem tokenizeAux_congr :
    ∀ (n m : Nat) (l : List Nat), l.length ≤ n → l.length ≤ m →
      tokenizeAux n l = tokenizeAux m l
  | 0, m, l, hn, _ => by
    have hl : l = [] := List.eq_nil_of_length_eq_zero (Nat.le_zero.mp hn)
    subst hl
    cases m with
    | zero => rfl
    | succ m => simp [tokenizeAux, parse_nil]
  | n + 1, 0, l, _, hm => by
    have hl : l = [] := List.eq_nil_of_length_eq_zero (Nat.le_zero.mp hm)
    subst hl
    simp [tokenizeAux, parse_nil]
  | n + 1, m + 1, l, hn, hm => by
    simp only [tokenizeAux]
    cases hp : parse_next l with
    | none => rfl
    | some fr =>
      obtain ⟨f, r⟩ := fr
      have hs := parse_next_shrink hp
      have ht := trimAsciiStart_length_le r
      show f :: tokenizeAux n (trimAsciiStart r) =
        f :: tokenizeAux m (trimAsciiStart r)
      rw [tokenizeAux_congr n m (trimAsciiStart r) (by omega) (by omega)]

theorem tokenize_cons {l r : List Nat} {f : ParsedResponse}
    (hp : parse_next l = some (f, r)) :
    tokenize l = f :: tokenize (trimAsciiStart r) := by
  have hs := parse_next_shrink hp
  have ht := trimAsciiStart_length_le r
  have hrepr : l.length = (l.length - 1) + 1 := by omega
  rw [tokenize, tokenize, hrepr]
  simp only [tokenizeAux, hp]
  congr 1
  exact tokenizeAux_congr _ _ _ (by omega) (le_refl _)

theorem head_not_ws_of_firstWs_none {l : List Nat} {b : Nat}
    (h : firstWs l = none) (hb : l.head? = some b) :
    isAsciiWsByte b = false := by
  cases l with
  | nil => cases hb
  | cons c t =>
    simp only [List.head?, Option.some.injEq] at hb
    subst hb
    by_contra hws
    simp only [Bool.not_eq_false] at hws
    have hmem_pref : ∃ s ∈ wsSeqs, s.isPrefixOf (c :: t) = true := by
      have hc : (((c = 32 ∨ c = 9) ∨ c = 10) ∨ c = 12) ∨ c = 13 := by
        simpa [isAsciiWsByte] using hws
      rcases hc with (((rfl | rfl) | rfl) | rfl) | rfl
      · exact ⟨[32], by decide, by simp [List.isPrefixOf]⟩
      · exact ⟨[9], by decide, by simp [List.isPrefixOf]⟩
      · exact ⟨[10], by decide, by simp [List.isPrefixOf]⟩
      · exact ⟨[12], by decide, by simp [List.isPrefixOf]⟩
      · exact ⟨[13], by decide, by simp [List.isPrefixOf]⟩
    obtain ⟨s, hsmem, hspre⟩ := hmem_pref
    simp only [firstWs] at h
    have := List.find?_eq_none.mp h s hsmem
    exact this hspre

theorem trimAsciiStart_of_head {l : List Nat} {b : Nat}
    (hb : l.head? = some b) (hws : isAsciiWsByte b = false) :
    trimAsciiStart l = l := by
  cases l with
  | nil => rfl
  | cons c t =>
    simp only [List.head?, Option.some.injEq] at hb
    subst hb
    simp [trimAsciiStart, List.dropWhile, hws]

theorem wireSeq_trimA {rest : List ParsedResponse} (hg : goodSeq rest = true) :
    trimAsciiStart (wireSeq rest) = wireSeq rest := by
  cases rest with
  | nil => rfl
  | cons f r =>
    have hh : goodHead f r = true := by
      simp only [goodSeq, Bool.and_eq_true] at hg
      exact hg.1
    cases f with
    | TspError t => simp [goodHead] at hh
    | Data p =>
      simp only [goodHead, Bool.and_eq_true] at hh
      have hfw : firstWs (p ++ wireSeq r) = none :=
        Option.isNone_iff_eq_none.mp hh.1.1.2
      have hne : p ≠ [] := by
        have := hh.1.1.1.1
        simpa using this
      cases p with
      | nil => exact absurd rfl hne
      | cons b p' =>
        exact trimAsciiStart_of_head (b := b)
          (by simp [wireSeq, wireF])
          (head_not_ws_of_firstWs_none hfw (by simp))
    | Prompt =>
      simp [wireSeq, wireF, promptBytes, List.cons_append, trimAsciiStart,
        List.dropWhile, isAsciiWsByte]
    | PromptWithError =>
      simp [wireSeq, wireF, promptErrBytes, List.cons_append, trimAsciiStart,
        List.dropWhile, isAsciiWsByte]
    | TspErrorStart =>
      simp [wireSeq, wireF, ermStartBytes, List.cons_append, trimAsciiStart,
        List.dropWhile, isAsciiWsByte]
    | TspErrorEnd =>
      simp [wireSeq, wireF, ermDoneBytes, List.cons_append, trimAsciiStart,
        List.dropWhile, isAsciiWsByte]
    | ProgressIndicator =>
      simp [wireSeq, wireF, progressBytes, List.cons_append, trimAsciiStart,
        List.dropWhile, isAsciiWsByte]
    | NodeStart =>
      simp [wireSeq, wireF, nodeStartBytes, List.cons_append, trimAsciiStart,
        List.dropWhile, isAsciiWsByte]
    | NodeEnd =>
      simp [wireSeq, wireF, nodeEndBytes, List.cons_append, trimAsciiStart,
        List.dropWhile, isAsciiWsByte]

theorem parse_step {f : ParsedResponse} {rest : List ParsedResponse}
    (hg : goodSeq (f :: rest) = true) :
    parse_next (wireSeq (f :: rest)) = some (f, wireSeq rest) := by
  have hh : goodHead f rest = true := by
    simp only [goodSeq, Bool.and_eq_true] at hg
    exact hg.1
  cases f with
  | TspError t => simp [goodHead] at hh
  | Prompt =>
    have htrim : trimStartUtf8 (wireSeq (.Prompt :: rest)) =
        wireSeq (.Prompt :: rest) :=
      trimStartUtf8_of_none
        (firstWs_none_of_sentinel_head _ (by exact Or.inl rfl))
    simp [parse_next, htrim, wireSeq, wireF, promptBytes, nodeStartBytes,
      nodeEndBytes, List.isPrefixOf, List.cons_append, drop_if_eq]
  | PromptWithError =>
    have htrim : trimStartUtf8 (wireSeq (.PromptWithError :: rest)) =
        wireSeq (.PromptWithError :: rest) :=
      trimStartUtf8_of_none
        (firstWs_none_of_sentinel_head _ (by exact Or.inl rfl))
    simp [parse_next, htrim, wireSeq, wireF, promptBytes, promptErrBytes,
      nodeStartBytes, nodeEndBytes, List.isPrefixOf, List.cons_append,
      drop_if_eq]
  | TspErrorStart =>
    have htrim : trimStartUtf8 (wireSeq (.TspErrorStart :: rest)) =
        wireSeq (.TspErrorStart :: rest) :=
      trimStartUtf8_of_none
        (firstWs_none_of_sentinel_head _ (by exact Or.inr (Or.inl rfl)))
    simp [parse_next, htrim, wireSeq, wireF, promptBytes, promptErrBytes,
      ermStartBytes, nodeStartBytes, nodeEndBytes, List.isPrefixOf,
      List.cons_append, drop_if_eq]
  | TspErrorEnd =>
    have htrim : trimStartUtf8 (wireSeq (.TspErrorEnd :: rest)) =
        wireSeq (.TspErrorEnd :: rest) :=
      trimStartUtf8_of_none
        (firstWs_none_of_sentinel_head _ (by exact Or.inr (Or.inl rfl)))
    simp [parse_next, htrim, wireSeq, wireF, promptBytes, promptErrBytes,
      ermStartBytes, ermDoneBytes, nodeStartBytes, nodeEndBytes,
      List.isPrefixOf, List.cons_append, drop_if_eq]
  | ProgressIndicator =>
    have htrim : trimStartUtf8 (wireSeq (.ProgressIndicator :: rest)) =
        wireSeq (.ProgressIndicator :: rest) :=
      trimStartUtf8_of_none
        (firstWs_none_of_sentinel_head _
          (by exact Or.inr (Or.inr (Or.inl rfl))))
    simp [parse_next, htrim, wireSeq, wireF, promptBytes, promptErrBytes,
      ermStartBytes, ermDoneBytes, ermBytes, progressBytes, nodeStartBytes,
      nodeEndBytes, List.isPrefixOf, List.cons_append, drop_if_eq]
  | NodeStart =>
    have htrim : trimStartUtf8 (wireSeq (.NodeStart :: rest)) =
        wireSeq (.NodeStart :: rest) :=
      trimStartUtf8_of_none
        (firstWs_none_of_sentinel_head _
          (by exact Or.inr (Or.inr (Or.inr rfl))))
    simp [parse_next, htrim, wireSeq, wireF, nodeStartBytes,
      List.isPrefixOf, List.cons_append, drop_if_eq]
  | NodeEnd =>
    have htrim : trimStartUtf8 (wireSeq (.NodeEnd :: rest)) =
        wireSeq (.NodeEnd :: rest) :=
      trimStartUtf8_of_none
        (firstWs_none_of_sentinel_head _
          (by exact Or.inr (Or.inr (Or.inr rfl))))
    simp [parse_next, htrim, wireSeq, wireF, nodeStartBytes, nodeEndBytes,
      List.isPrefixOf, List.cons_append, drop_if_eq]
  | Data p =>
    simp only [goodHead, Bool.and_eq_true] at hh
    obtain ⟨⟨⟨⟨hne', h0'⟩, hfw'⟩, hfind'⟩, -⟩ := hh
    have hne : p ≠ [] := by simpa using hne'
    have hfw : firstWs (p ++ wireSeq rest) = none :=
      Option.isNone_iff_eq_none.mp hfw'
    have hfind : find_next (p ++ wireSeq rest) =
        if rest.isEmpty then none else some p.length := by
      simpa using hfind'
    have h0 : (p.head? == some 0) = false := by
      simpa using h0'
    have htrim : trimStartUtf8 (p ++ wireSeq rest) = p ++ wireSeq rest :=
      trimStartUtf8_of_none hfw
    have hwire : wireSeq (.Data p :: rest) = p ++ wireSeq rest := rfl
    have hnp : ∀ n ∈ findNeedles, n.isPrefixOf (p ++ wireSeq rest) = false := by
      intro n hmem
      refine not_prefix_of_find (findNeedles_heads n hmem).1 hmem ?h
      cases hre : rest.isEmpty with
      | true =>
        left
        rw [hfind, hre, if_pos rfl]
      | false =>
        right
        refine ⟨p.length, ?h1, ?h2⟩
        · rw [hfind, hre]
          simp
        · cases p with
          | nil => exact absurd rfl hne
          | cons b p' => simp
    have h1 := hnp nodeStartBytes (by decide)
    have h2 := hnp nodeEndBytes (by decide)
    have h3 := hnp promptBytes (by decide)
    have h4 := hnp promptErrBytes (by decide)
    have h5 := hnp ermStartBytes (by decide)
    have h6 := hnp ermDoneBytes (by decide)
    have h7 := hnp ermBytes (by decide)
    have h8 := hnp progressBytes (by decide)
    cases p with
    | nil => exact absurd rfl hne
    | cons b p' =>
      have hbne : b ≠ 0 := by simpa using h0
      have hcond : (((b :: p') ++ wireSeq rest).isEmpty ||
          ((b :: p') ++ wireSeq rest).head? == some 0) = false := by
        simp [hbne]
      rw [hwire]
      simp only [parse_next, htrim, hcond, h1, h2, h3, h4, h5, h6, h7, h8,
        Bool.false_eq_true, if_false]
      rw [hfind]
      cases rest with
      | nil => simp [wireSeq]
      | cons r0 r' =>
        simp [List.take_left, List.drop_left]

/-! Lemmas about the dispatcher loop. -/

theorem tokenize_nil_of_not_content {data : List Nat}
    (h : Repl.hasContent data = false) : tokenize data = [] := by
  have hall : ∀ x ∈ data, (x == 0) = true := by
    intro x hx
    have hemp : (data.reverse.dropWhile (fun b => b == 0)).isEmpty = true := by
      simpa [Repl.hasContent] using h
    have hnil : data.reverse.dropWhile (fun b => b == 0) = [] :=
      List.isEmpty_iff.mp hemp
    have := List.dropWhile_eq_nil_iff.mp hnil
    exact this x (List.mem_reverse.mpr hx)
  cases data with
  | nil => rfl
  | cons b t =>
    have hb : b = 0 := by
      have := hall b (List.mem_cons_self b t)
      simpa using this
    subst hb
    simp [tokenize, tokenizeAux, parse_next]

theorem processFrames_error_after
    (xs : List ParsedResponse) (f : ParsedResponse)
    (ys : List ParsedResponse) :
    ∀ (ls ls' : Repl.LoopState) (as : List Repl.Action)
      (e : InstrumentReplError),
      Repl.processFrames xs ls = .ok (ls', as) →
      ReadState.next_state (ls'.readState.getD .Init) f = .error e →
      Repl.processFrames (xs ++ f :: ys) ls = .error e := by
  induction xs with
  | nil =>
    intro ls ls' as e hok herr
    simp only [Repl.processFrames] at hok
    cases hok
    simp only [List.nil_append, Repl.processFrames, herr]
  | cons g xs ih =>
    intro ls ls' as e hok herr
    simp only [Repl.processFrames] at hok ⊢
    cases hng : ReadState.next_state (ls.readState.getD .Init) g with
    | error e' => rw [hng] at hok; cases hok
    | ok ns =>
      rw [hng] at hok
      simp only at hok ⊢
      cases hrec : Repl.processFrames xs
          { prompt := if Repl.state_action ls.readState (some ns) =
                .Prompt then true else ls.prompt
            prevState := ls.readState
            readState := some ns
            getError := if Repl.state_action ls.readState (some ns) =
                .GetError then true else ls.getError } with
      | error e' => rw [hrec] at hok; cases hok
      | ok lsas =>
        obtain ⟨lsF, as'⟩ := lsas
        rw [hrec] at hok
        simp only [Except.ok.injEq, Prod.mk.injEq] at hok
        obtain ⟨hls, -⟩ := hok
        subst hls
        have hres := ih _ lsF as' e hrec herr
        simp only [List.append_eq]
        rw [hres]

theorem processFrames_getError_iff (frames : List ParsedResponse) :
    ∀ (ls ls' : Repl.LoopState) (as : List Repl.Action),
      Repl.processFrames frames ls = .ok (ls', as) →
      (ls'.getError = true ↔
        (ls.getError = true ∨ Repl.Action.GetError ∈ as)) := by
  induction frames with
  | nil =>
    intro ls ls' as hok
    simp only [Repl.processFrames] at hok
    cases hok
    simp
  | cons f frames ih =>
    intro ls ls' as hok
    simp only [Repl.processFrames] at hok
    cases hng : ReadState.next_state (ls.readState.getD .Init) f with
    | error e' => rw [hng] at hok; cases hok
    | ok ns =>
      rw [hng] at hok
      simp only at hok
      cases hrec : Repl.processFrames frames
          { prompt := if Repl.state_action ls.readState (some ns) =
                .Prompt then true else ls.prompt
            prevState := ls.readState
            readState := some ns
            getError := if Repl.state_action ls.readState (some ns) =
                .GetError then true else ls.getError } with
      | error e' => rw [hrec] at hok; cases hok
      | ok lsas =>
        obtain ⟨lsF, as'⟩ := lsas
        rw [hrec] at hok
        simp only [Except.ok.injEq, Prod.mk.injEq] at hok
        obtain ⟨hls, has⟩ := hok
        subst hls
        subst has
        have hiff := ih _ lsF as' hrec
        by_cases ha : Repl.state_action ls.readState (some ns) = .GetError
    
    
        · simp only [ha, if_pos] at hiff
          simp only [hiff]
          simp [ha]
        · simp only [if_neg ha] at hiff
          simp only [hiff]
          constructor
          · rintro (hg | hm)
            · exact Or.inl hg
            · exact Or.inr (List.mem_cons_of_mem _ hm)
          · rintro (hg | hm)
            · exact Or.inl hg
            · rcases List.mem_cons.mp hm with he | hm'
              · exact absurd he.symm ha
              · exact Or.inr hm'

theorem lookup_setFile (fs : FileSystem) (p : FsPath) (c : List Nat) :
    ((fs.setFile p c).files.lookup p) = some c := by
  simp [FileSystem.setFile, List.lookup]

theorem fwAux_done_replicate : ∀ m : Nat,
    fwAux doneNeedle (List.replicate m 120) = none := by
  intro m
  induction m with
  | zero => rfl
  | succ m ih =>
    simp only [List.replicate_succ, fwAux]
    rw [if_neg (by simp [doneNeedle, List.isPrefixOf])]
    rw [ih]
    rfl

/-! The claims. -/

/-- C1: the state-transition function next_state is total with explicit
errors: every (state, frame) pair whose kind-cell is defined in the spec's
transition table maps to Ok of the table's target, and every undefined pair
maps to Err of StateMachineTransitionError carrying exactly that state and
that frame; no undefined pair is silently absorbed. -/
theorem c1_next_state_total_matches_table (s : ReadState)
    (f : ParsedResponse) :
    ReadState.next_state s f =
      (match specTableLookup s (kindOf f) with
       | some t => .ok t
       | none => .error (.stateMachineTransitionError s f)) := by
  cases s <;> cases f <;> rfl

/-- C1 witness: a defined cell and an undefined cell, evaluated. -/
theorem c1_next_state_total_matches_table_witness :
    ReadState.next_state .Init .Prompt = .ok .DataReadEnd ∧
    ReadState.next_state .Init .TspErrorEnd =
      .error (.stateMachineTransitionError .Init .TspErrorEnd) := by
  constructor
  · have h := c1_next_state_total_matches_table .Init .Prompt
    rw [h]
    rfl
  · have h := c1_next_state_total_matches_table .Init .TspErrorEnd
    rw [h]
    rfl

/-- C2: the node-capture transitions hold in next_state: Init with
NodeStart yields NodeDataReadStart; NodeDataReadStart with Data yields
NodeDataReadContinue and with NodeEnd yields NodeDataReadEnd;
NodeDataReadEnd with Prompt yields DataReadEnd; and the read-state
alphabet contains NodeDataReadStart, NodeDataReadContinue and
NodeDataReadEnd (they appear below as ReadState constructors). -/
theorem c2_node_capture_transitions :
    ReadState.next_state .Init .NodeStart = .ok .NodeDataReadStart ∧
    (∀ d : List Nat,
      ReadState.next_state .NodeDataReadStart (.Data d) =
        .ok .NodeDataReadContinue) ∧
    ReadState.next_state .NodeDataReadStart .NodeEnd =
      .ok .NodeDataReadEnd ∧
    ReadState.next_state .NodeDataReadEnd .Prompt = .ok .DataReadEnd :=
  ⟨rfl, fun _ => rfl, rfl, rfl⟩

/-- C3 counterexample: a chunk holding an undefined (state, frame) pair -
the error-dump terminator in state Init - makes handle_data return the
transition error instead of logging it and continuing, refuting the claim
that handle_data does not propagate the error out of the main loop. -/
theorem c3_counterexample :
    Repl.handle_data [69, 82, 77, 62, 68, 79, 78, 69] false none none =
      .error (.stateMachineTransitionError .Init .TspErrorEnd) := by
  decide

/-- C3 (amended): when next_state returns a StateMachineTransitionError on
some frame of the chunk (all earlier frames having processed normally),
handle_data returns that error immediately through the question-mark
operator; Repl::start applies the question-mark operator to handle_data in
turn, so the error leaves the main loop and ends the session rather than
being logged and recovered. -/
theorem c3_transition_error_propagates
    (data : List Nat) (prompt : Bool) (prev st : Option ReadState)
    (pre : List ParsedResponse) (f : ParsedResponse)
    (rest : List ParsedResponse) (ls : Repl.LoopState)
    (as : List Repl.Action) (e : InstrumentReplError)
    (htok : tokenize data = pre ++ f :: rest)
    (hok : Repl.processFrames pre ⟨prompt, prev, st, false⟩ = .ok (ls, as))
    (herr : ReadState.next_state (ls.readState.getD .Init) f = .error e) :
    Repl.handle_data data prompt prev st = .error e := by
  have hcontent : Repl.hasContent data = true := by
    cases hc : Repl.hasContent data with
    | true => rfl
    | false =>
      have hnil := tokenize_nil_of_not_content hc
      rw [hnil] at htok
      exact absurd htok.symm (by simp)
  have hloop : Repl.processFrames (tokenize data)
      ⟨prompt, prev, st, false⟩ = .error e := by
    rw [htok]
    exact processFrames_error_after pre f rest _ ls as e hok herr
  simp only [Repl.handle_data, hcontent, if_true, hloop]

/-- C3 witness: a prompt followed by the error-dump terminator; the prompt
frame processes normally, the terminator hits the undefined pair
(DataReadEnd, TspErrorEnd) and the error propagates out of handle_data. -/
theorem c3_transition_error_propagates_witness :
    Repl.handle_data [84, 83, 80, 62, 69, 82, 77, 62, 68, 79, 78, 69]
      false none none =
      .error (.stateMachineTransitionError .DataReadEnd .TspErrorEnd) :=
  c3_transition_error_propagates _ false none none [.Prompt] .TspErrorEnd []
    ⟨true, none, some .DataReadEnd, false⟩ [.Prompt] _
    (by decide) (by decide) (by decide)

/-- C4 counterexample: in a dump with one unparseable record (bytes of the
word bad) followed by a well-formed one (bytes of the word good, accepted
by the stand-in parser), get_errors fails for the whole dump with the
deserialization error of the bad record, and the good record is not
returned - refuting per-record dropping. -/
theorem c4_counterexample :
    get_errors_parse fromStrGoodOnly
      [69, 82, 77, 62, 83, 84, 65, 82, 84, 10,
       69, 82, 77, 62, 98, 97, 100, 10,
       69, 82, 77, 62, 103, 111, 111, 100, 10,
       69, 82, 77, 62, 68, 79, 78, 69] =
      .error (.deserializationError [98, 97, 100]) ∧
    fromStrGoodOnly [103, 111, 111, 100] = .ok sampleTspError := by
  constructor <;> decide

/-- C4 (amended): the first unparseable TspError record aborts the whole
collection: if every record before it parses and the bad record's trimmed
text fails to parse, collectTspErrors returns that deserialization error
through the question-mark operator, and no record - parsed or not - is
returned. -/
theorem c4_first_bad_record_aborts_dump
    (fromStr : List Nat → Except InstrumentReplError TspError)
    (pre : List ParsedResponse) (bad : List Nat)
    (rest : List ParsedResponse) (d : InstrumentReplError)
    (hpre : ∀ e, ParsedResponse.TspError e ∈ pre →
      ∃ x, fromStr (trimUtf8 e) = .ok x)
    (hbad : fromStr (trimUtf8 bad) = .error d) :
    collectTspErrors fromStr (pre ++ .TspError bad :: rest) = .error d := by
  induction pre with
  | nil => simp [collectTspErrors, hbad]
  | cons g pre ih =>
    have hpre' : ∀ e, ParsedResponse.TspError e ∈ pre →
        ∃ x, fromStr (trimUtf8 e) = .ok x :=
      fun e he => hpre e (List.mem_cons_of_mem g he)
    cases g with
    | TspError e =>
      obtain ⟨x, hx⟩ := hpre e (List.mem_cons_self _ _)
      have hrec := ih hpre'
      simp only [List.cons_append, collectTspErrors, hx, List.append_eq, hrec]
    | Prompt =>
      simp only [List.cons_append, collectTspErrors]
      exact ih hpre'
    | PromptWithError =>
      simp only [List.cons_append, collectTspErrors]
      exact ih hpre'
    | TspErrorStart =>
      simp only [List.cons_append, collectTspErrors]
      exact ih hpre'
    | TspErrorEnd =>
      simp only [List.cons_append, collectTspErrors]
      exact ih hpre'
    | Data p =>
      simp only [List.cons_append, collectTspErrors]
      exact ih hpre'
    | ProgressIndicator =>
      simp only [List.cons_append, collectTspErrors]
      exact ih hpre'
    | NodeStart =>
      simp only [List.cons_append, collectTspErrors]
      exact ih hpre'
    | NodeEnd =>
      simp only [List.cons_append, collectTspErrors]
      exact ih hpre'

/-- C4 witness: a dump-start frame, then the bad record, then a good record
and the dump terminator; the collection fails with the bad record's error. -/
theorem c4_first_bad_record_aborts_dump_witness :
    collectTspErrors fromStrGoodOnly
      ([.TspErrorStart] ++ .TspError [98, 97, 100] ::
        [.TspError [103, 111, 111, 100], .TspErrorEnd]) =
      .error (.deserializationError [98, 97, 100]) :=
  c4_first_bad_record_aborts_dump fromStrGoodOnly [.TspErrorStart]
    [98, 97, 100] [.TspError [103, 111, 111, 100], .TspErrorEnd] _
    (by intro e he; simp at he) (by decide)

/-- C5: the tokenizer checks sentinels on the whitespace-trimmed view but
slices the untrimmed buffer, so on the fresh buffer consisting of a
newline, the TSP prompt sentinel and the byte X it consumes only four
bytes from the untrimmed start and leaves the corrupted remainder
greater-than X instead of X: the claimed skip-whitespace-then-consume
behavior does not hold. -/
theorem c5_untrimmed_slice_bug :
    parse_next [10, 84, 83, 80, 62, 88] = some (.Prompt, [62, 88]) := by
  decide

/-- C6 counterexample: one chunk holding two PromptWithError frames, both
of whose transitions reach DataReadEndPendingError (two GetError actions),
results in a single coalesced invocation of the error-fetch subprotocol,
not one invocation per frame as the claim states. -/
theorem c6_counterexample :
    Repl.handle_data [84, 83, 80, 63, 84, 83, 80, 63] false none none =
      .ok ⟨true, some .DataReadEndPendingError, some .DataReadEnd, 1,
        [.GetError, .GetError]⟩ := by
  decide

/-- C6 (amended): per handle_data call the error-fetch subprotocol runs at
most once: it runs exactly once, after the whole frame loop and before the
prompt flag is returned, when at least one frame's action was GetError
(however many such frames the chunk held), and zero times otherwise. -/
theorem c6_error_fetch_coalesced
    (data : List Nat) (prompt : Bool) (prev st : Option ReadState)
    (r : Repl.HandleResult)
    (h : Repl.handle_data data prompt prev st = .ok r) :
    r.errorFetches = if Repl.Action.GetError ∈ r.actions then 1 else 0 := by
  simp only [Repl.handle_data] at h
  by_cases hc : Repl.hasContent data = true
  · rw [if_pos hc] at h
    cases hpf : Repl.processFrames (tokenize data)
        ⟨prompt, prev, st, false⟩ with
    | error e => rw [hpf] at h; cases h
    | ok lsas =>
      obtain ⟨ls, as⟩ := lsas
      rw [hpf] at h
      simp only at h
      have hiff := processFrames_getError_iff (tokenize data) _ ls as hpf
      cases hge : ls.getError with
      | true =>
        rw [hge] at h
        simp only [if_pos] at h
        cases h
        have hmem : Repl.Action.GetError ∈ as := by
          have := hiff.mp hge
          simpa using this
        simp [hmem]
      | false =>
        rw [hge] at h
        simp only [Bool.false_eq_true, if_false] at h
        cases h
        have hnm : Repl.Action.GetError ∉ as := by
          intro hm
          have := hiff.mpr (Or.inr hm)
          rw [hge] at this
          cases this
        simp [hnm]
  · rw [if_neg hc] at h
    cases h
    simp

/-- C6 witness: the two-PromptWithError chunk instantiates the amended
statement with one fetch against two GetError actions. -/
theorem c6_error_fetch_coalesced_witness :
    Repl.handle_data [84, 83, 80, 63, 84, 83, 80, 63] false none none =
      .ok ⟨true, some .DataReadEndPendingError, some .DataReadEnd, 1,
        [.GetError, .GetError]⟩ ∧
    (Repl.HandleResult.mk true (some .DataReadEndPendingError)
        (some .DataReadEnd) 1 [.GetError, .GetError]).errorFetches =
      if Repl.Action.GetError ∈
          [Repl.Action.GetError, Repl.Action.GetError] then 1 else 0 :=
  ⟨by decide,
   c6_error_fetch_coalesced [84, 83, 80, 63, 84, 83, 80, 63] false none none
     ⟨true, some .DataReadEndPendingError, some .DataReadEnd, 1,
       [.GetError, .GetError]⟩ (by decide)⟩

/-- C7 counterexample: the Data self-loop transition from
NodeDataReadContinue to itself derives Action::None, not GetNodeDetails,
refuting rule 4 for that transition. -/
theorem c7_counterexample :
    Repl.state_action (some .NodeDataReadContinue)
        (some .NodeDataReadContinue) = Repl.Action.None ∧
    Repl.state_action (some .NodeDataReadContinue)
        (some .NodeDataReadContinue) ≠ Repl.Action.GetNodeDetails := by
  decide

/-- C7 (amended): transitions into NodeDataReadContinue derive
GetNodeDetails exactly when the previous state is one of Init,
TextDataReadStart, TextDataReadContinue, DataReadEnd, ErrorReadEnd,
FileLoading or NodeDataReadStart (or at bootstrap, when there is no
previous state); the Data self-loop from NodeDataReadContinue itself
derives None instead. -/
theorem c7_get_node_details_sources :
    Repl.state_action (some .Init) (some .NodeDataReadContinue) =
      .GetNodeDetails ∧
    Repl.state_action (some .TextDataReadStart)
      (some .NodeDataReadContinue) = .GetNodeDetails ∧
    Repl.state_action (some .TextDataReadContinue)
      (some .NodeDataReadContinue) = .GetNodeDetails ∧
    Repl.state_action (some .DataReadEnd) (some .NodeDataReadContinue) =
      .GetNodeDetails ∧
    Repl.state_action (some .ErrorReadEnd) (some .NodeDataReadContinue) =
      .GetNodeDetails ∧
    Repl.state_action (some .FileLoading) (some .NodeDataReadContinue) =
      .GetNodeDetails ∧
    Repl.state_action (some .NodeDataReadStart)
      (some .NodeDataReadContinue) = .GetNodeDetails ∧
    Repl.state_action none (some .NodeDataReadContinue) = .GetNodeDetails ∧
    Repl.state_action (some .NodeDataReadContinue)
      (some .NodeDataReadContinue) = .None := by
  decide

/-- C8 counterexample: with a single attempt and a trace whose first read
would block and whose second read contains the needle, the output-queue
clear fails - the WouldBlock retry consumed the only attempt - while with
two attempts it succeeds; so a WouldBlock read does consume one of the
max_attempts attempts, contrary to the claim. -/
theorem c8_counterexample :
    clear_output_queue blockThenOkReads [84, 48] 1 0 [] =
      .error (.other "unable to clear instrument output queue") ∧
    clear_output_queue blockThenOkReads [84, 48] 2 0 [] = .ok () := by
  constructor <;> decide

/-- C8 (amended): the output-queue-clear loop performs at most max_attempts
iterations and fails with the terminal Other error once they are exhausted,
and a WouldBlock read advances the loop consuming one attempt; the
error-fetch accumulation loop, by contrast, has no attempt bound at all: on
a read sequence that never produces the DONE token (here a stream of the
byte 120) it is still running after any number of iterations. -/
theorem c8_bounds_amended :
    (∀ (reads : Nat → ReadOutcome) (needle : List Nat) (idx : Nat)
        (acc : List Nat),
      clear_output_queue reads needle 0 idx acc =
        .error (.other "unable to clear instrument output queue")) ∧
    (∀ (reads : Nat → ReadOutcome) (needle : List Nat) (n idx : Nat)
        (acc : List Nat), reads idx = .wouldBlock →
      clear_output_queue reads needle (n + 1) idx acc =
        clear_output_queue reads needle n (idx + 1) acc) ∧
    (∀ (fuel idx k : Nat),
      get_errors_accum alwaysXReads fuel idx (List.replicate k 120) =
        none) := by
  refine ⟨fun _ _ _ _ => rfl, fun reads needle n idx acc h => ?p2, ?p3⟩
  · simp only [clear_output_queue, h]
  · intro fuel
    induction fuel with
    | zero => intro idx k; rfl
    | succ m ih =>
      intro idx k
      simp only [get_errors_accum, alwaysXReads]
      have he : trimEndNul [120] = [120] := rfl
      rw [he]
      simp only [List.isEmpty_cons, Bool.false_eq_true, if_false]
      rw [← List.replicate_succ']
      rw [fwAux_done_replicate (k + 1)]
      simp only [Option.isSome_none, Bool.false_eq_true, if_false]
      exact ih (idx + 1) (k + 1)

/-- C8 witness: the three amended facts evaluated on concrete traces. -/
theorem c8_bounds_amended_witness :
    clear_output_queue alwaysXReads [62] 0 5 [] =
      .error (.other "unable to clear instrument output queue") ∧
    clear_output_queue blockThenOkReads [84, 48] 3 0 [] =
      clear_output_queue blockThenOkReads [84, 48] 2 1 [] ∧
    get_errors_accum alwaysXReads 7 0 (List.replicate 0 120) = none :=
  ⟨c8_bounds_amended.1 alwaysXReads [62] 5 [],
   c8_bounds_amended.2.1 blockThenOkReads [84, 48] 2 0 [] (by decide),
   c8_bounds_amended.2.2 7 0 0⟩

/-- C9 counterexample: the sequence Data(bytes of TSP), ProgressIndicator
meets every condition of the claim (the payload is sentinel-free,
non-empty, and starts with neither ASCII whitespace nor NUL, and no two
Data frames are adjacent), yet its concatenated wire form - the bytes of
TSP followed by four greater-than signs - re-tokenizes as a Prompt
sentinel spanning the frame boundary followed by a three-byte Data frame,
not as the original sequence. -/
theorem c9_counterexample :
    origGood [.Data [84, 83, 80], .ProgressIndicator] = true ∧
    wireSeq [.Data [84, 83, 80], .ProgressIndicator] =
      [84, 83, 80, 62, 62, 62, 62] ∧
    tokenize (wireSeq [.Data [84, 83, 80], .ProgressIndicator]) =
      [.Prompt, .Data [62, 62, 62]] ∧
    tokenize (wireSeq [.Data [84, 83, 80], .ProgressIndicator]) ≠
      [.Data [84, 83, 80], .ProgressIndicator] := by
  refine ⟨by decide, by decide, by decide, ?h⟩
  intro h
  rw [show tokenize (wireSeq [.Data [84, 83, 80], .ProgressIndicator]) =
    [.Prompt, .Data [62, 62, 62]] from by decide] at h
  cases h

/-- C9 (amended): tokenizing the concatenation of the frames' wire forms
is the identity on sequences satisfying goodSeq: no TspError frames, no
two adjacent Data frames, and each Data payload non-empty, not beginning
with NUL or a whitespace-character encoding, with the earliest sentinel
occurrence in the stream from that payload onward sitting exactly at the
payload's end (so no sentinel occurs inside a payload or across a frame
boundary). -/
theorem c9_roundtrip_amended {frames : List ParsedResponse}
    (hg : goodSeq frames = true) : tokenize (wireSeq frames) = frames := by
  induction frames with
  | nil => rfl
  | cons f rest ih =>
    have hrest : goodSeq rest = true := by
      simp only [goodSeq, Bool.and_eq_true] at hg
      exact hg.2
    rw [tokenize_cons (parse_step hg), wireSeq_trimA hrest, ih hrest]

/-- C9 witness: a nine-frame conversation - prompt, a text payload, an
error-pending prompt, an empty error dump, a node payload capture and a
progress marker - satisfies goodSeq and round-trips exactly. -/
theorem c9_roundtrip_amended_witness :
    goodSeq [.Prompt, .Data [104, 101, 108, 108, 111], .PromptWithError,
      .TspErrorStart, .TspErrorEnd, .NodeStart, .Data [97, 98], .NodeEnd,
      .ProgressIndicator] = true ∧
    tokenize (wireSeq [.Prompt, .Data [104, 101, 108, 108, 111],
      .PromptWithError, .TspErrorStart, .TspErrorEnd, .NodeStart,
      .Data [97, 98], .NodeEnd, .ProgressIndicator]) =
      [.Prompt, .Data [104, 101, 108, 108, 111], .PromptWithError,
       .TspErrorStart, .TspErrorEnd, .NodeStart, .Data [97, 98], .NodeEnd,
       .ProgressIndicator] :=
  ⟨by decide, c9_roundtrip_amended (by decide)⟩

/-- C10: node-details persistence is not atomic on error: whenever the
output path has a parent that is not a regular file and the payload's
trimmed bytes fail to parse as JSON, update_node_config_json leaves the
output file created and truncated to empty - destroying whatever contents
were previously persisted there - while the error is reported (the stderr
branch of the source, returned here as a true flag). -/
theorem c10_truncate_before_parse {J : Type} (parse : List Nat → Option J)
    (pretty : J → List Nat) (fs : FileSystem) (file_path : FsPath)
    (d : List Nat) (dir : FsPath) (old : List Nat)
    (hparent : parentOf file_path = some dir)
    (hnf : fs.isFile dir = false)
    (hparse : parse (trimUtf8 d) = none)
    (_hold : fs.files.lookup file_path = some old) :
    ((Repl.update_node_config_json parse pretty fs file_path
        (.Data d)).1.files.lookup file_path = some [] ∧
     (Repl.update_node_config_json parse pretty fs file_path
        (.Data d)).2 = true) := by
  simp only [Repl.update_node_config_json, Repl.write_json_data, hparent,
    hnf, hparse, Bool.false_eq_true, if_false]
  cases hdir : fs.isDir dir with
  | true =>
    simp only [if_pos]
    constructor
    · exact lookup_setFile fs file_path []
    · trivial
  | false =>
    simp only [Bool.false_eq_true, if_false]
    constructor
    · exact lookup_setFile (fs.createDirAll dir) file_path []
    · trivial

/-- C10 witness: a filesystem holding the directory tmp and a previously
persisted file tmp, n with contents 1, 2, 3; an always-failing parse of the
payload leaves the file present but empty and the failure reported. -/
theorem c10_truncate_before_parse_witness :
    ((Repl.update_node_config_json (J := Unit) (fun _ => none) (fun _ => [])
        ⟨[["tmp"]], [(["tmp", "n"], [1, 2, 3])]⟩ ["tmp", "n"]
        (.Data [123])).1.files.lookup ["tmp", "n"] = some [] ∧
     (Repl.update_node_config_json (J := Unit) (fun _ => none) (fun _ => [])
        ⟨[["tmp"]], [(["tmp", "n"], [1, 2, 3])]⟩ ["tmp", "n"]
        (.Data [123])).2 = true) :=
  c10_truncate_before_parse (fun _ => none) (fun _ => [])
    ⟨[["tmp"]], [(["tmp", "n"], [1, 2, 3])]⟩ ["tmp", "n"] [123] ["tmp"]
    [1, 2, 3] rfl (by decide) rfl (by decide)
